import Mathlib

/-!
Verification of the conversation engine and approximate string matcher of the
`consolid-prod-api` repository.  Python strings are modelled as `List Char`,
Python floats produced by the matcher as exact rationals (all arithmetic in the
source is on small integer ratios and the literals `0.8`, `0.3`, `1.0`, `0.0`),
and every fallible external collaborator call as an `Except` value supplied by
an oracle.
-/

/-- Characters stripped by Python `str.strip()` (the ASCII whitespace set). -/
def isPyWS (c : Char) : Bool :=
  c == ' ' || c == '\t' || c == '\n' || c == '\r' || c == '\x0b' || c == '\x0c'

/-- Convert a Lean string literal to the `List Char` model of a Python string. -/
def pyStr (s : String) : List Char := s.data

/-- Python `str.lower()` (the source only ever lowercases ASCII data). -/
def pyLower (s : List Char) : List Char := s.map Char.toLower

/-- Python `str.strip()`: drop whitespace from both ends. -/
def pyStrip (s : List Char) : List Char :=
  ((s.dropWhile isPyWS).reverse.dropWhile isPyWS).reverse

/-- Python substring test `needle in hay` (contiguous occurrence; the empty
string occurs in every string). -/
def pyContains (hay needle : List Char) : Bool :=
  match hay with
  | [] => needle.isEmpty
  | c :: t => needle.isPrefixOf (c :: t) || pyContains t needle

theorem length_dropWhile_le (p : Char → Bool) (l : List Char) :
    (l.dropWhile p).length ≤ l.length :=
  (List.dropWhile_suffix p).length_le

/-- Python `str.split()` with no separator: split on runs of whitespace,
producing no empty tokens. -/
def pySplitWS : List Char → List (List Char)
  | [] => []
  | c :: rest =>
    if isPyWS c then pySplitWS rest
    else (c :: rest.takeWhile (fun x => !isPyWS x)) ::
      pySplitWS (rest.dropWhile (fun x => !isPyWS x))
termination_by s => s.length
decreasing_by
  all_goals simp only [List.length_cons]
  · omega
  · exact Nat.lt_succ_of_le (length_dropWhile_le _ _)

/-- Longest-common-subsequence length.  The source fills an
`(m+1) × (n+1)` table with
`dp[i][j] = if s1[i-1] == s2[j-1] then dp[i-1][j-1] + 1 else max dp[i-1][j] dp[i][j-1]`;
this recursion computes the same table entries (the LCS length of the two
strings). -/
def lcs_length : List Char → List Char → Nat
  | [], _ => 0
  | _, [] => 0
  | a :: s, b :: t =>
    if a = b then lcs_length s t + 1
    else max (lcs_length s (b :: t)) (lcs_length (a :: s) t)

/-- `ExtractionService._calculate_similarity`, translated line by line:
empty-input short-circuit on the raw strings, normalization
(`lower().strip()`), equality, substring containment returning `0.8`,
then the maximum of Jaccard word overlap and the LCS character ratio
(with the source's early `return 0.0` when a token set is empty and its
`union == 0` and `max_len > 0` guards). -/
def calculate_similarity (text1 text2 : List Char) : ℚ :=
  if text1 = [] ∨ text2 = [] then 0
  else
    let t1 := pyStrip (pyLower text1)
    let t2 := pyStrip (pyLower text2)
    if t1 = t2 then 1
    else if pyContains t2 t1 || pyContains t1 t2 then 0.8
    else
      let words1 := (pySplitWS t1).toFinset
      let words2 := (pySplitWS t2).toFinset
      if words1 = ∅ ∨ words2 = ∅ then 0
      else
        let inter := (words1 ∩ words2).card
        let union := (words1 ∪ words2).card
        if union = 0 then 0
        else
          let jaccard : ℚ := (inter : ℚ) / (union : ℚ)
          let maxLen := max t1.length t2.length
          let charSim : ℚ :=
            if maxLen > 0 then (lcs_length t1 t2 : ℚ) / (maxLen : ℚ) else 0
          max jaccard charSim

/-- The similarity function exactly as the specification describes it
(§4.1(a)): `0.0` on an empty raw input, `1.0` on equal normalized strings,
`0.8` on substring containment, otherwise the maximum of the Jaccard token
score (`0.0` when a token set is empty) and `LCS / max(len, len)`. -/
def similarity_spec (a b : List Char) : ℚ :=
  if a = [] ∨ b = [] then 0
  else
    let na := pyStrip (pyLower a)
    let nb := pyStrip (pyLower b)
    if na = nb then 1
    else if pyContains nb na || pyContains na nb then 0.8
    else
      let ta := (pySplitWS na).toFinset
      let tb := (pySplitWS nb).toFinset
      let jaccard : ℚ :=
        if ta = ∅ ∨ tb = ∅ then 0
        else ((ta ∩ tb).card : ℚ) / ((ta ∪ tb).card : ℚ)
      max jaccard ((lcs_length na nb : ℚ) / ((max na.length nb.length : ℕ) : ℚ))

theorem pyContains_nil_needle (hay : List Char) : pyContains hay [] = true := by
  cases hay <;> simp [pyContains]

theorem dropWhile_cons_not {p : Char → Bool} :
    ∀ {l : List Char} {c : Char} {r : List Char}, l.dropWhile p = c :: r → p c = false := by
  intro l
  induction l with
  | nil => intro c r h; simp [List.dropWhile] at h
  | cons a t ih =>
    intro c r h
    by_cases hp : p a
    · rw [List.dropWhile_cons, if_pos hp] at h
      exact ih h
    · rw [List.dropWhile_cons, if_neg hp] at h
      obtain ⟨rfl, -⟩ := List.cons.inj h
      exact Bool.not_eq_true _ ▸ hp

theorem head_pyStrip_not_ws {l : List Char} {c : Char} {r : List Char}
    (h : pyStrip l = c :: r) : isPyWS c = false := by
  have hsuf : (l.dropWhile isPyWS).reverse.dropWhile isPyWS <:+ (l.dropWhile isPyWS).reverse :=
    List.dropWhile_suffix isPyWS
  have hpre : ((l.dropWhile isPyWS).reverse.dropWhile isPyWS).reverse <+: l.dropWhile isPyWS := by
    have := List.reverse_prefix.mpr hsuf
    simpa using this
  rw [pyStrip] at h
  rw [h] at hpre
  obtain ⟨s, hs⟩ := hpre
  exact dropWhile_cons_not hs.symm

theorem pySplitWS_cons_ne_nil {c : Char} {rest : List Char} (h : isPyWS c = false) :
    pySplitWS (c :: rest) ≠ [] := by
  simp [pySplitWS, h]

theorem pySplitWS_pyStrip_ne_nil {l : List Char} (h : pyStrip l ≠ []) :
    pySplitWS (pyStrip l) ≠ [] := by
  rcases hc : pyStrip l with _ | ⟨c, r⟩
  · exact absurd hc h
  · exact pySplitWS_cons_ne_nil (head_pyStrip_not_ws hc)

theorem pyStrip_eq_nil_of_all_ws {l : List Char} (h : ∀ c ∈ l, isPyWS c = true) :
    pyStrip l = [] := by
  have h1 : l.dropWhile isPyWS = [] := List.dropWhile_eq_nil_iff.mpr h
  simp [pyStrip, h1]

theorem isPyWS_toLower {c : Char} (h : isPyWS c = true) : isPyWS c.toLower = true := by
  have h6 : c = ' ' ∨ c = '\t' ∨ c = '\n' ∨ c = '\r' ∨ c = '\x0b' ∨ c = '\x0c' := by
    simpa [isPyWS, or_assoc] using h
  rcases h6 with h6 | h6 | h6 | h6 | h6 | h6 <;> subst h6 <;> decide

/-- `calculate_similarity` agrees everywhere with the specification's
description of the similarity score.  The source's extra early returns
(empty token set, zero union, zero max length) are unreachable: in the final
branch both normalized strings are nonempty, so splitting them yields at least
one token. -/
theorem calculate_similarity_eq_spec (a b : List Char) :
    calculate_similarity a b = similarity_spec a b := by
  unfold calculate_similarity similarity_spec
  by_cases h0 : a = [] ∨ b = []
  · simp [h0]
  · simp only [h0, if_false]
    by_cases h1 : pyStrip (pyLower a) = pyStrip (pyLower b)
    · simp [h1]
    · simp only [h1, if_false]
      by_cases h2 : pyContains (pyStrip (pyLower b)) (pyStrip (pyLower a)) ||
          pyContains (pyStrip (pyLower a)) (pyStrip (pyLower b))
      · simp [h2]
      · simp only [h2, if_false]
        rw [Bool.or_eq_true] at h2
        push_neg at h2
        have hna : pyStrip (pyLower a) ≠ [] := by
          intro hnil
          exact h2.1 (by rw [hnil]; exact pyContains_nil_needle _)
        have hnb : pyStrip (pyLower b) ≠ [] := by
          intro hnil
          exact h2.2 (by rw [hnil]; exact pyContains_nil_needle _)
        have hta : (pySplitWS (pyStrip (pyLower a))).toFinset ≠ ∅ := by
          rw [Ne, List.toFinset_eq_empty_iff]
          exact pySplitWS_pyStrip_ne_nil hna
        have htb : (pySplitWS (pyStrip (pyLower b))).toFinset ≠ ∅ := by
          rw [Ne, List.toFinset_eq_empty_iff]
          exact pySplitWS_pyStrip_ne_nil hnb
        have hunion : ((pySplitWS (pyStrip (pyLower a))).toFinset ∪
            (pySplitWS (pyStrip (pyLower b))).toFinset).card ≠ 0 := by
          rw [Ne, Finset.card_eq_zero, Finset.union_eq_empty]
          intro hu
          exact hta hu.1
        have hmax : max (pyStrip (pyLower a)).length (pyStrip (pyLower b)).length > 0 := by
          have : (pyStrip (pyLower a)).length > 0 := List.length_pos.mpr hna
          omega
        simp [hta, htb, hunion, hmax]

/-- C8: the similarity function returns 0.0 when either raw input is empty,
1.0 when the lowercased whitespace-stripped forms are equal, 0.8 when either
normalized string is a substring of the other, and otherwise the maximum of
the Jaccard token-overlap score and `LCS / max(len a, len b)` (the behavior
described by `similarity_spec`); in particular `similarity(a, a) = 1.0` for
every non-empty `a`, `similarity("", x) = 0.0` for every `x`, and
`similarity("cat", "category") = 0.8`. -/
theorem C8_similarity_behavior :
    (∀ a b : List Char, calculate_similarity a b = similarity_spec a b)
    ∧ (∀ a : List Char, a ≠ [] → calculate_similarity a a = 1)
    ∧ (∀ x : List Char, calculate_similarity [] x = 0)
    ∧ calculate_similarity (pyStr "cat") (pyStr "category") = 0.8 := by
  refine ⟨calculate_similarity_eq_spec, ?_, ?_, ?_⟩
  · intro a ha
    simp only [calculate_similarity]
    rw [if_neg (by simp [ha])]
    simp
  · intro x
    simp [calculate_similarity]
  · simp only [calculate_similarity]
    rw [if_neg (by decide), if_neg (by decide), if_pos (by decide)]

theorem C8_similarity_behavior_witness :
    pyStr "xy" ≠ [] ∧ calculate_similarity (pyStr "xy") (pyStr "xy") = 1 :=
  ⟨by decide, C8_similarity_behavior.2.1 (pyStr "xy") (by decide)⟩

/-- C10: for any two strings that are non-empty but consist only of whitespace,
the similarity is 1.0 and not 0.0 — the empty-input short-circuit tests the raw
strings before normalization, and both strings then normalize to the empty
string and compare equal. -/
theorem C10_whitespace_similarity_one :
    ∀ a b : List Char, a ≠ [] → b ≠ [] →
      (∀ c ∈ a, isPyWS c = true) → (∀ c ∈ b, isPyWS c = true) →
      calculate_similarity a b = 1 ∧ calculate_similarity a b ≠ 0 := by
  intro a b ha hb hwa hwb
  have hna : pyStrip (pyLower a) = [] := by
    apply pyStrip_eq_nil_of_all_ws
    intro c hc
    obtain ⟨d, hd, rfl⟩ := List.mem_map.mp hc
    exact isPyWS_toLower (hwa d hd)
  have hnb : pyStrip (pyLower b) = [] := by
    apply pyStrip_eq_nil_of_all_ws
    intro c hc
    obtain ⟨d, hd, rfl⟩ := List.mem_map.mp hc
    exact isPyWS_toLower (hwb d hd)
  have hone : calculate_similarity a b = 1 := by
    simp only [calculate_similarity]
    rw [if_neg (by simp [ha, hb]), if_pos (by rw [hna, hnb])]
  refine ⟨hone, ?_⟩
  rw [hone]
  norm_num

theorem C10_whitespace_similarity_one_witness :
    calculate_similarity (pyStr "   ") (pyStr "\t") = 1
    ∧ calculate_similarity (pyStr "   ") (pyStr "\t") ≠ 0 :=
  C10_whitespace_similarity_one (pyStr "   ") (pyStr "\t")
    (by decide) (by decide) (by decide) (by decide)

/-- Containment score computed for one candidate inside
`_find_best_match`'s partial-match loop: `len(db)/len(user)` when the user
value contains the candidate, `len(user)/len(db)` when the candidate contains
the user value, `0` otherwise.  Both strings are already lowercased (and the
user value stripped). -/
def containment_score (uv dbl : List Char) : ℚ :=
  if pyContains uv dbl then (dbl.length : ℚ) / (uv.length : ℚ)
  else if pyContains dbl uv then (uv.length : ℚ) / (dbl.length : ℚ)
  else 0

/-- One iteration of `_find_best_match`'s partial-match loop: keep the
candidate only on a strict improvement of the running best score. -/
def best_match_step (uv : List Char) (acc : Option (List Char) × ℚ)
    (dbv : List Char) : Option (List Char) × ℚ :=
  let dbl := pyLower dbv
  if pyContains uv dbl then
    let score : ℚ := (dbl.length : ℚ) / (uv.length : ℚ)
    if score > acc.2 then (some dbv, score) else acc
  else if pyContains dbl uv then
    let score : ℚ := (uv.length : ℚ) / (dbl.length : ℚ)
    if score > acc.2 then (some dbv, score) else acc
  else acc

/-- `ManufacturingTechnicalAssistant._find_best_match`: lowercase and strip the
user value; return the first case-insensitive exact match; otherwise run the
partial-match loop and return the best candidate only when its score exceeds
the hard-coded `0.3` threshold. -/
def find_best_match (user_value : List Char) (db_values : List (List Char)) :
    Option (List Char) :=
  let uv := pyStrip (pyLower user_value)
  match db_values.find? (fun dbv => uv == pyLower dbv) with
  | some dbv => some dbv
  | none =>
    let result := db_values.foldl (best_match_step uv) (none, 0)
    if result.2 > 0.3 then result.1 else none

/-- The maximum containment score over a candidate list (and `0`). -/
def best_containment_score (uv : List Char) (db_values : List (List Char)) : ℚ :=
  db_values.foldl (fun m dbv => max m (containment_score uv (pyLower dbv))) 0

theorem containment_score_nonneg (uv dbl : List Char) :
    0 ≤ containment_score uv dbl := by
  unfold containment_score
  by_cases h1 : pyContains uv dbl
  · simp only [h1, if_true]
    positivity
  · by_cases h2 : pyContains dbl uv
    · simp only [h1, h2, if_true, if_false]
      positivity
    · simp [h1, h2]

theorem best_match_step_eq (uv : List Char) (acc : Option (List Char) × ℚ)
    (dbv : List Char) (hnn : 0 ≤ acc.2) :
    best_match_step uv acc dbv =
      if containment_score uv (pyLower dbv) > acc.2
        then (some dbv, containment_score uv (pyLower dbv)) else acc := by
  simp only [best_match_step, containment_score]
  by_cases h1 : pyContains uv (pyLower dbv)
  · simp [h1]
  · by_cases h2 : pyContains (pyLower dbv) uv
    · simp [h1, h2]
    · simp only [h1, h2, if_false, Bool.false_eq_true]
      rw [if_neg (not_lt.mpr hnn)]

theorem foldl_best_match_step_spec (uv : List Char) :
    ∀ (l : List (List Char)) (acc : Option (List Char) × ℚ), 0 ≤ acc.2 →
      (l.foldl (best_match_step uv) acc).2
          = l.foldl (fun m x => max m (containment_score uv (pyLower x))) acc.2
      ∧ (l.foldl (best_match_step uv) acc = acc
          ∨ ∃ c ∈ l, (l.foldl (best_match_step uv) acc).1 = some c
              ∧ containment_score uv (pyLower c) = (l.foldl (best_match_step uv) acc).2
              ∧ acc.2 < (l.foldl (best_match_step uv) acc).2) := by
  intro l
  induction l with
  | nil => intro acc _; exact ⟨rfl, Or.inl rfl⟩
  | cons x t ih =>
    intro acc hnn
    rw [List.foldl_cons, List.foldl_cons, best_match_step_eq uv acc x hnn]
    by_cases hgt : containment_score uv (pyLower x) > acc.2
    · rw [if_pos hgt]
      obtain ⟨h2, hdisj⟩ := ih (some x, containment_score uv (pyLower x))
        (containment_score_nonneg _ _)
      refine ⟨by rw [h2, max_eq_right (le_of_lt hgt)], ?_⟩
      rcases hdisj with heq | ⟨c, hc, h1, hsc, hlt⟩
      · refine Or.inr ⟨x, List.mem_cons_self _ _, ?_, ?_, ?_⟩
        · rw [heq]
        · rw [heq]
        · rw [heq]; exact hgt
      · exact Or.inr ⟨c, List.mem_cons_of_mem _ hc, h1, hsc, lt_trans hgt hlt⟩
    · rw [if_neg hgt]
      obtain ⟨h2, hdisj⟩ := ih acc hnn
      refine ⟨by rw [h2, max_eq_left (not_lt.mp hgt)], ?_⟩
      rcases hdisj with heq | ⟨c, hc, h1, hsc, hlt⟩
      · exact Or.inl heq
      · exact Or.inr ⟨c, List.mem_cons_of_mem _ hc, h1, hsc, hlt⟩

/-- C9: `_find_best_match` returns a case-insensitive exact match immediately;
otherwise it returns the candidate attaining the maximum containment score iff
that maximum strictly exceeds the 0.3 threshold, else `none`.  In particular
`best_match("alpha version", ["Alpha", "Beta"])` returns `"Alpha"` with score
`5/13` and `best_match("zzz", ["Alpha", "Beta"])` returns `none`. -/
theorem C9_find_best_match_behavior :
    (∀ (uv : List Char) (cands : List (List Char)) (c : List Char),
        cands.find? (fun dbv => pyStrip (pyLower uv) == pyLower dbv) = some c →
        find_best_match uv cands = some c)
    ∧ (∀ (uv : List Char) (cands : List (List Char)),
        cands.find? (fun dbv => pyStrip (pyLower uv) == pyLower dbv) = none →
        (best_containment_score (pyStrip (pyLower uv)) cands > 0.3 →
            ∃ c ∈ cands, find_best_match uv cands = some c ∧
              containment_score (pyStrip (pyLower uv)) (pyLower c)
                = best_containment_score (pyStrip (pyLower uv)) cands)
          ∧ (¬ best_containment_score (pyStrip (pyLower uv)) cands > 0.3 →
              find_best_match uv cands = none))
    ∧ find_best_match (pyStr "alpha version") [pyStr "Alpha", pyStr "Beta"]
        = some (pyStr "Alpha")
    ∧ containment_score (pyStrip (pyLower (pyStr "alpha version"))) (pyLower (pyStr "Alpha"))
        = 5 / 13
    ∧ find_best_match (pyStr "zzz") [pyStr "Alpha", pyStr "Beta"] = none := by
  have hsA : containment_score (pyStrip (pyLower (pyStr "alpha version")))
      (pyLower (pyStr "Alpha")) = 5 / 13 := by
    unfold containment_score
    rw [if_pos (by decide)]
    norm_num [show (pyLower (pyStr "Alpha")).length = 5 from rfl,
      show (pyStrip (pyLower (pyStr "alpha version"))).length = 13 from rfl]
  refine ⟨?_, ?_, ?_, hsA, ?_⟩
  · intro uv cands c hfind
    simp only [find_best_match, hfind]
  · intro uv cands hfind
    obtain ⟨h2, hdisj⟩ :=
      foldl_best_match_step_spec (pyStrip (pyLower uv)) cands (none, 0) (le_refl 0)
    have hr2 : (cands.foldl (best_match_step (pyStrip (pyLower uv))) (none, 0)).2
        = best_containment_score (pyStrip (pyLower uv)) cands := h2
    constructor
    · intro hbest
      rcases hdisj with heq | ⟨c, hc, h1, hsc, hlt⟩
      · exfalso
        rw [heq] at hr2
        rw [← hr2] at hbest
        norm_num at hbest
      · refine ⟨c, hc, ?_, by rw [hsc, hr2]⟩
        simp only [find_best_match, hfind]
        rw [if_pos (hr2 ▸ hbest)]
        exact h1
    · intro hnot
      simp only [find_best_match, hfind]
      rw [if_neg (fun hgt => hnot (hr2 ▸ hgt))]
  · have hfind : ([pyStr "Alpha", pyStr "Beta"].find?
        (fun dbv => pyStrip (pyLower (pyStr "alpha version")) == pyLower dbv)) = none := by
      decide
    have hsB : containment_score (pyStrip (pyLower (pyStr "alpha version")))
        (pyLower (pyStr "Beta")) = 0 := by
      unfold containment_score
      rw [if_neg (by decide), if_neg (by decide)]
    have hfold : [pyStr "Alpha", pyStr "Beta"].foldl
        (best_match_step (pyStrip (pyLower (pyStr "alpha version")))) (none, 0)
        = (some (pyStr "Alpha"), 5 / 13) := by
      rw [List.foldl_cons, best_match_step_eq _ _ _ (by norm_num), hsA,
        if_pos (by norm_num)]
      rw [List.foldl_cons, best_match_step_eq _ _ _ (by norm_num), hsB,
        if_neg (by norm_num), List.foldl_nil]
    simp only [find_best_match, hfind, hfold]
    rw [if_pos (by norm_num)]
  · have hfind : ([pyStr "Alpha", pyStr "Beta"].find?
        (fun dbv => pyStrip (pyLower (pyStr "zzz")) == pyLower dbv)) = none := by
      decide
    have hsA0 : containment_score (pyStrip (pyLower (pyStr "zzz")))
        (pyLower (pyStr "Alpha")) = 0 := by
      unfold containment_score
      rw [if_neg (by decide), if_neg (by decide)]
    have hsB0 : containment_score (pyStrip (pyLower (pyStr "zzz")))
        (pyLower (pyStr "Beta")) = 0 := by
      unfold containment_score
      rw [if_neg (by decide), if_neg (by decide)]
    have hfold : [pyStr "Alpha", pyStr "Beta"].foldl
        (best_match_step (pyStrip (pyLower (pyStr "zzz")))) (none, 0)
        = (none, 0) := by
      rw [List.foldl_cons, best_match_step_eq _ _ _ (by norm_num), hsA0,
        if_neg (by norm_num), List.foldl_cons,
        best_match_step_eq _ _ _ (by norm_num), hsB0,
        if_neg (by norm_num), List.foldl_nil]
    simp only [find_best_match, hfind, hfold]
    rw [if_neg (by norm_num)]

theorem C9_find_best_match_behavior_witness :
    [pyStr "Alpha"].find?
        (fun dbv => pyStrip (pyLower (pyStr "alpha")) == pyLower dbv)
      = some (pyStr "Alpha")
    ∧ find_best_match (pyStr "alpha") [pyStr "Alpha"] = some (pyStr "Alpha") :=
  ⟨by decide, C9_find_best_match_behavior.1 (pyStr "alpha") [pyStr "Alpha"]
    (pyStr "Alpha") (by decide)⟩

/-! ## The manufacturing technical assistant (`manufacturing_assistant.py`) -/

/-- `ConversationPhase` from `technical_models.py`. -/
inductive ConversationPhase where
  | GREETING
  | PROBLEM_IDENTIFICATION
  | CLARIFICATION
  | ANALYSIS
  | SOLUTION_GENERATION
  | COMPLETION
  | POST_SOLUTION
  | NEW_PROBLEM
deriving DecidableEq

/-- Python `dict` lookup `d.get(k)` on an insertion-ordered association list
(keys are unique in every dict the source builds). -/
def dictGet {α : Type} : List (List Char × α) → List Char → Option α
  | [], _ => none
  | p :: rest, k => if p.1 = k then some p.2 else dictGet rest k

/-- Python `k in d`. -/
def dictHasKey {α : Type} (d : List (List Char × α)) (k : List Char) : Bool :=
  (dictGet d k).isSome

/-- Python `d[k] = v`: replace the value of an existing key in place, append a
new key at the end. -/
def dictSet {α : Type} : List (List Char × α) → List Char → α → List (List Char × α)
  | [], k, v => [(k, v)]
  | p :: rest, k, v => if p.1 = k then (k, v) :: rest else p :: dictSet rest k v

/-- Python `d.update(e)`. -/
def dictUpdate {α : Type} (d e : List (List Char × α)) : List (List Char × α) :=
  e.foldl (fun acc p => dictSet acc p.1 p.2) d

/-- Keys of a dict, in order. -/
def dictKeys {α : Type} (d : List (List Char × α)) : List (List Char) :=
  d.map (·.1)

/-- One per-slot entry of `self.slot_config`.  The source's validation lambdas
are all of the form `lambda x: len(x.strip()) >= n` (`n = 3` except
`machine_type`, where `n = 1`), so the validator is kept as the bound `n`. -/
structure SlotConfig where
  name : List Char
  priority : Nat
  required : Bool
  minStripLen : Nat
deriving DecidableEq

/-- `config["validation"](value)`. -/
def slotValidation (c : SlotConfig) (v : List Char) : Bool :=
  (pyStrip v).length ≥ c.minStripLen

/-- `self.slot_config` (name, priority, required, validation bound). -/
def slot_config : List SlotConfig :=
  [⟨pyStr "operation", 1, true, 3⟩,
   ⟨pyStr "machine_type", 2, true, 1⟩,
   ⟨pyStr "defect", 3, true, 3⟩,
   ⟨pyStr "error", 4, true, 3⟩]

/-- The slot names of the static schema. -/
def schemaNames : List (List Char) := slot_config.map (·.name)

/-- `self.technical_db`: the canonical vocabulary lists. -/
def technical_db : List (List Char × List (List Char)) :=
  [(pyStr "operations",
    [pyStr "Attach sleeve to body",
     pyStr "Attach sleeve to body barrel seam",
     pyStr "Raglon Sleeve attach",
     pyStr "Side Seam"]),
   (pyStr "machine_types", [pyStr "FS", pyStr "OL"]),
   (pyStr "defects", [pyStr "Broken stitch", pyStr "Raw edge"]),
   (pyStr "errors",
    [pyStr "Throat plate damage",
     pyStr "Manual trimming",
     pyStr "Looper damage / Looper/Spreader damage",
     pyStr "Incorrect timing",
     pyStr "Incorrect thread tension tightness",
     pyStr "Incorrect Foot pressure",
     pyStr "Incorrect foot height",
     pyStr "Incorrect feedog height",
     pyStr "High pressure vacuum cutters",
     pyStr "Blunt Needle",
     pyStr "Incorrect Foot shoe"])]

/-- `db_key = slot_name + "s" if slot_name != "machine_type" else "machine_types"`. -/
def dbKeyFor (slot_name : List Char) : List Char :=
  if slot_name = pyStr "machine_type" then pyStr "machine_types"
  else slot_name ++ pyStr "s"

/-- Stable insertion by ascending priority (`sorted(..., key=priority)`). -/
def insertByPriority (c : SlotConfig) : List SlotConfig → List SlotConfig
  | [] => [c]
  | d :: rest =>
    if c.priority < d.priority then c :: d :: rest else d :: insertByPriority c rest

/-- Stable sort of the slot configuration by ascending priority. -/
def sortByPriority : List SlotConfig → List SlotConfig
  | [] => []
  | c :: rest => insertByPriority c (sortByPriority rest)

/-- `_get_missing_critical_slots`: required slots absent from `slots`, ordered
by ascending priority. -/
def get_missing_critical_slots (slots : List (List Char × List Char)) :
    List (List Char) :=
  (((sortByPriority slot_config).filter
      (fun c => c.required && !(dictHasKey slots c.name))).map (·.name))

/-- `any(keyword in intent for keyword in keywords)`. -/
def containsAny (intent : List Char) (keywords : List (List Char)) : Bool :=
  keywords.any (fun k => pyContains intent k)

/-- The "new problem" keyword set. -/
def new_problem_keywords : List (List Char) :=
  [pyStr "new", pyStr "another", pyStr "different", pyStr "problem", pyStr "issue"]

/-- The "clarification" keyword set. -/
def clarify_keywords : List (List Char) :=
  [pyStr "clarify", pyStr "explain", pyStr "more", pyStr "detail"]

/-- One iteration of the validation loop inside `_extract_slots_from_input`:
skip null values and unknown slot names; for a slot whose database key exists,
accept an exact (case-sensitive) database member, otherwise accept a fuzzy
`_find_best_match` result, otherwise drop the value; only for a slot without a
database list fall back to the local validator. -/
def validateSlotStep (validated : List (List Char × List Char))
    (p : List Char × Option (List Char)) : List (List Char × List Char) :=
  match p.2 with
  | none => validated
  | some value =>
    if (slot_config.find? (fun c => c.name == p.1)).isSome then
      match dictGet technical_db (dbKeyFor p.1) with
      | some dbList =>
        if value ∈ dbList then dictSet validated p.1 value
        else
          match find_best_match value dbList with
          | some bm => dictSet validated p.1 bm
          | none => validated
      | none =>
        match slot_config.find? (fun c => c.name == p.1) with
        | some cfg =>
          if slotValidation cfg value then dictSet validated p.1 value else validated
        | none => validated
    else validated

/-- The full validation loop of `_extract_slots_from_input` over the mapping
returned by the extraction chain. -/
def validateExtractedSlots
    (extracted : List (List Char × Option (List Char))) :
    List (List Char × List Char) :=
  extracted.foldl validateSlotStep []

/-- `_extract_slots_from_input`: the whole body runs inside `try`, and any
failure of the extraction chain yields `{}`. -/
def extract_slots_from_input
    (oracleExtraction : Except (List Char) (List (List Char × Option (List Char)))) :
    List (List Char × List Char) :=
  match oracleExtraction with
  | Except.error _ => []
  | Except.ok extracted => validateExtractedSlots extracted

/-- One solved-problem record is the `problem_details` dict: the slots snapshot
plus the `problem_id` and `timestamp` entries. -/
def ProblemRecord : Type := List (List Char × List Char)

instance : DecidableEq ProblemRecord := by
  unfold ProblemRecord
  infer_instance

/-- `ConversationState` (the fields the engine reads or writes;
`technical_context` and `context` are never consumed). -/
structure ConversationState where
  slots : List (List Char × List Char)
  conversation_history : List (List Char)
  current_phase : ConversationPhase
  clarifications_needed : List (List Char)
  turn_count : Nat
  solved_problems : List ProblemRecord
  problem_count : Nat
deriving DecidableEq

/-- The fresh state a session starts with (`ConversationState()` defaults). -/
def initialConversationState : ConversationState :=
  { slots := []
    conversation_history := []
    current_phase := ConversationPhase.GREETING
    clarifications_needed := []
    turn_count := 0
    solved_problems := []
    problem_count := 0 }

/-- The intent-analysis result: the contents of the plain dict produced by the
intent chain's `JsonOutputParser` (the `pydantic_object` argument only shapes
the prompt — the parser never builds a `TechnicalIntent` instance, so
`hasattr(intent_analysis, 'intent')` and `hasattr(intent_analysis, 'dict')`
are both False on it).  Only the `"intent"` entry is ever used for control
flow; the remaining entries flow only into prompt text for external calls. -/
structure TechnicalIntent where
  intent : List Char
deriving DecidableEq

/-- A solution row returned by the database service
(`retrieve_technical_solutions`), fields read with `.get(..., 'N/A')`. -/
structure DbSolution where
  operation : Option (List Char)
  machinetype : Option (List Char)
  defect : Option (List Char)
  error : Option (List Char)
  fishbone : Option (List Char)
  action : Option (List Char)
deriving DecidableEq

/-- The dict returned by `retrieve_technical_solutions`
(`found` flag and optional solution row). -/
structure DbLookupResult where
  found : Bool
  solution : Option DbSolution
deriving DecidableEq

instance exceptDecEq {ε α : Type} [DecidableEq ε] [DecidableEq α] :
    DecidableEq (Except ε α) := fun a b =>
  match a, b with
  | Except.error e, Except.error f =>
    if h : e = f then isTrue (by rw [h]) else isFalse (by intro hc; cases hc; exact h rfl)
  | Except.ok x, Except.ok y =>
    if h : x = y then isTrue (by rw [h]) else isFalse (by intro hc; cases hc; exact h rfl)
  | Except.error _, Except.ok _ => isFalse (by intro hc; cases hc)
  | Except.ok _, Except.error _ => isFalse (by intro hc; cases hc)

/-- The behavior of every external collaborator during one turn, including the
wall clock.  `Except.error msg` models the call raising an exception. -/
structure TurnOracle where
  intentResult : Except (List Char) TechnicalIntent
  slotExtraction : Except (List Char) (List (List Char × Option (List Char)))
  responseText : Except (List Char) (List Char)
  solutionText : Except (List Char) (List Char)
  dbLookup : Except (List Char) DbLookupResult
  timestamp : List Char
deriving DecidableEq

/-- `_determine_conversation_phase` (the `intent` argument is the string under
the `"intent"` key of the intent-analysis result, lowercased by the source). -/
def determine_conversation_phase (s : ConversationState)
    (intent_value : List Char) : ConversationPhase :=
  let missing_slots := get_missing_critical_slots s.slots
  let intent := pyLower intent_value
  if s.current_phase = ConversationPhase.POST_SOLUTION then
    if containsAny intent new_problem_keywords then ConversationPhase.NEW_PROBLEM
    else if containsAny intent clarify_keywords then ConversationPhase.CLARIFICATION
    else ConversationPhase.POST_SOLUTION
  else if s.current_phase = ConversationPhase.COMPLETION then
    ConversationPhase.POST_SOLUTION
  else if s.current_phase = ConversationPhase.NEW_PROBLEM then
    if missing_slots.length > 2 then ConversationPhase.PROBLEM_IDENTIFICATION
    else if missing_slots.length > 0 then ConversationPhase.CLARIFICATION
    else ConversationPhase.ANALYSIS
  else if s.turn_count ≤ 1 then ConversationPhase.GREETING
  else if missing_slots.length > 2 then ConversationPhase.PROBLEM_IDENTIFICATION
  else if missing_slots.length > 0 then ConversationPhase.CLARIFICATION
  else if s.clarifications_needed ≠ [] then ConversationPhase.CLARIFICATION
  else if missing_slots.length = 0 then ConversationPhase.ANALYSIS
  else ConversationPhase.PROBLEM_IDENTIFICATION

/-- Python `sep.join(parts)`. -/
def pyJoin (sep : List Char) : List (List Char) → List Char
  | [] => []
  | [x] => x
  | x :: y :: rest => x ++ sep ++ pyJoin sep (y :: rest)

/-- `_generate_fallback_response`: with no missing slot, a fixed completion
sentence; otherwise the canned question for the highest-priority missing slot,
with example values drawn from the technical database. -/
def generate_fallback_response (s : ConversationState) : List Char :=
  let missing := get_missing_critical_slots s.slots
  match missing with
  | [] => pyStr "Perfect! I have all the information needed. Let me analyze the problem and provide a solution."
  | first :: _ =>
    let operations_list :=
      pyJoin (pyStr ", ") (((dictGet technical_db (pyStr "operations")).getD []).take 5)
        ++ pyStr "..."
    let machine_types_list :=
      pyJoin (pyStr ", ") (((dictGet technical_db (pyStr "machine_types")).getD []).take 8)
    let defects_list :=
      pyJoin (pyStr ", ") (((dictGet technical_db (pyStr "defects")).getD []).take 5)
        ++ pyStr "..."
    let errors_list :=
      pyJoin (pyStr ", ") (((dictGet technical_db (pyStr "errors")).getD []).take 5)
        ++ pyStr "..."
    let slot_questions : List (List Char × List Char) :=
      [(pyStr "operation",
        pyStr "What manufacturing operation were you performing? (e.g., "
          ++ operations_list ++ pyStr ")"),
       (pyStr "machine_type",
        pyStr "What type of machine are you using? (e.g., "
          ++ machine_types_list ++ pyStr ")"),
       (pyStr "defect",
        pyStr "What type of defect are you observing? (e.g., "
          ++ defects_list ++ pyStr ")"),
       (pyStr "error",
        pyStr "What specific error or issue do you think is causing this problem? (e.g., "
          ++ errors_list ++ pyStr ")")]
    (dictGet slot_questions first).getD
      (pyStr "Could you provide more details about the technical problem?")

/-- `_generate_intelligent_response`: recompute and store the phase, then ask
the response chain; if the chain raises, fall back to the canned question (the
phase write has already happened by then). -/
def generate_intelligent_response (s : ConversationState) (intent_value : List Char)
    (respOracle : Except (List Char) (List Char)) : List Char × ConversationState :=
  let phase := determine_conversation_phase s intent_value
  let s' := { s with current_phase := phase }
  match respOracle with
  | Except.ok r => (pyStrip r, s')
  | Except.error _ => (generate_fallback_response s', s')

/-- `solution.get(field, 'N/A')`. -/
def getOrNA (o : Option (List Char)) : List Char := o.getD (pyStr "N/A")

/-- `_retrieve_database_context`: always returns a string — empty slots, a
lookup failure and a lookup miss each produce a fixed message, a hit is
formatted field by field. -/
def retrieve_database_context (slots : List (List Char × List Char))
    (dbOracle : Except (List Char) DbLookupResult) : List Char :=
  if slots = [] then
    pyStr "No database context available - no technical information collected yet."
  else
    match dbOracle with
    | Except.error e => pyStr "Database retrieval error: " ++ e
    | Except.ok db_result =>
      match db_result.solution with
      | none =>
        pyStr "No matching technical solution found in database for current problem parameters."
      | some sol =>
        if db_result.found = false then
          pyStr "No matching technical solution found in database for current problem parameters."
        else
          pyJoin (pyStr "\n")
            [pyStr "Found matching technical solution:",
             pyStr "  - Operation: " ++ getOrNA sol.operation,
             pyStr "  - Machine Type: " ++ getOrNA sol.machinetype,
             pyStr "  - Defect: " ++ getOrNA sol.defect,
             pyStr "  - Error: " ++ getOrNA sol.error,
             pyStr "  - Root Cause: " ++ getOrNA sol.fishbone,
             pyStr "  - Recommended Action: " ++ getOrNA sol.action]

/-- Python `f"{n:03d}"` for a non-negative count. -/
def zeroPad3 (n : Nat) : List Char :=
  let s := (Nat.repr n).data
  List.replicate (3 - s.length) '0' ++ s

/-- The fixed follow-up appended to every composed solution. -/
def post_solution_msg : List Char :=
  pyStr "\n\n🔧 Do you have any other technical problems I can help you solve, or do you need clarification on this solution?"

/-- The canned solution text used when the solution chain raises. -/
def canned_solution_text : List Char :=
  pyStr "✅ Based on the information provided, I recommend checking the machine settings and components. Please follow standard troubleshooting procedures.\n\n🔧 Do you have any other technical problems I can help with?"

/-- The `problem_details` record minted by `_generate_technical_solution`:
the slots snapshot with `problem_id = "PROB" + %03d(problem_count + 1)` and the
current timestamp appended. -/
def mintedProblemRecord (s : ConversationState) (ts : List Char) : ProblemRecord :=
  dictSet (dictSet s.slots (pyStr "problem_id")
      (pyStr "PROB" ++ zeroPad3 (s.problem_count + 1)))
    (pyStr "timestamp") ts

/-- `_generate_technical_solution`: retrieve database context (never raises),
increment `problem_count`, append the minted record to `solved_problems`, then
ask the solution chain; a chain failure is caught after the state mutations, so
the state change is identical on both paths. -/
def generate_technical_solution (s : ConversationState) (o : TurnOracle) :
    List Char × ConversationState :=
  let _database_context := retrieve_database_context s.slots o.dbLookup
  let s' := { s with
    problem_count := s.problem_count + 1
    solved_problems := s.solved_problems ++ [mintedProblemRecord s o.timestamp] }
  match o.solutionText with
  | Except.ok sol => (pyStrip sol ++ post_solution_msg, s')
  | Except.error _ => (canned_solution_text, s')

/-- The first `try` block of `process_user_message`: append the utterance and
count the turn (pure, so its `except` arm is unreachable in the model). -/
def recordUserTurn (s : ConversationState) (user_input : List Char) :
    ConversationState :=
  { s with
    turn_count := s.turn_count + 1
    conversation_history := s.conversation_history ++ [user_input] }

/-- Steps 1–6 of the turn pipeline after a successful intent analysis — the
rest of the second `try` block is pure in the model, since every other
collaborator failure is handled locally inside the callee.  The intent result
is the plain dict returned by `JsonOutputParser`, so the `hasattr` probe at
line 568 fails and `intent` there is always the empty string — the
slots-reset branch (lines 571–575) is dead code; at line 593 the other
`hasattr` probe fails too, so `_determine_conversation_phase` reads the real
intent string from the dict via `.get("intent", "")`. -/
def process_turn_after_intent (s1 : ConversationState) (o : TurnOracle)
    (intent_analysis : TechnicalIntent) : List Char × ConversationState :=
  let current_phase := s1.current_phase
  let intent : List Char := []
  let s2 :=
    if (current_phase = ConversationPhase.POST_SOLUTION ∨
        current_phase = ConversationPhase.COMPLETION) ∧
        containsAny intent new_problem_keywords = true then
      { s1 with slots := [], current_phase := ConversationPhase.NEW_PROBLEM }
    else s1
  let s3 :=
    if current_phase ≠ ConversationPhase.POST_SOLUTION then
      let extracted := extract_slots_from_input o.slotExtraction
      if extracted ≠ [] then { s2 with slots := dictUpdate s2.slots extracted } else s2
    else s2
  let missing_slots := get_missing_critical_slots s3.slots
  let rs :=
    if current_phase = ConversationPhase.POST_SOLUTION then
      generate_intelligent_response s3 intent_analysis.intent o.responseText
    else if missing_slots = [] ∧ ¬(current_phase = ConversationPhase.COMPLETION ∨
        current_phase = ConversationPhase.POST_SOLUTION) then
      let rs0 := generate_technical_solution s3 o
      (rs0.1, { rs0.2 with current_phase := ConversationPhase.COMPLETION })
    else
      generate_intelligent_response s3 intent_analysis.intent o.responseText
  (rs.1, { rs.2 with conversation_history := rs.2.conversation_history ++ [rs.1] })

/-- The body of `process_user_message`'s second `try` block: the only
collaborator call whose exception is not handled locally inside a callee is
the intent-analysis invocation, so it is the only bind that can propagate an
error to the top-level handler. -/
def process_user_message_body (s1 : ConversationState) (_user_input : List Char)
    (o : TurnOracle) : Except (List Char) (List Char × ConversationState) := do
  let intent_analysis ← o.intentResult
  return process_turn_after_intent s1 o intent_analysis

/-- The fallback returned by the top-level handler on the very first turn. -/
def welcome_fallback_text : List Char :=
  pyStr "🔧 Welcome to Manufacturing Technical Support! I'm experiencing some technical issues, but I can still help. Please describe the manufacturing problem you're having - what operation were you performing and what type of issue occurred?"

/-- The fallback returned by the top-level handler on later turns. -/
def generic_fallback_text : List Char :=
  pyStr "I'm having some technical difficulties with my advanced features, but I'm still here to help. Could you please tell me more about your manufacturing problem? What operation, machine type, and issue are you experiencing?"

/-- `process_user_message`: record the turn, run the pipeline, and convert any
escaped exception into a canned response that leaves the session alive (the
fallback is returned without being appended to the history). -/
def process_user_message (s0 : ConversationState) (user_input : List Char)
    (o : TurnOracle) : List Char × ConversationState :=
  let s1 := recordUserTurn s0 user_input
  match process_user_message_body s1 user_input o with
  | Except.ok r => r
  | Except.error _ =>
    if s1.turn_count ≤ 1 then (welcome_fallback_text, s1)
    else (generic_fallback_text, s1)

/-- A whole session: fold `process_user_message` over a list of
(utterance, collaborator behavior) pairs. -/
def runTurns (s : ConversationState) (turns : List (List Char × TurnOracle)) :
    ConversationState :=
  turns.foldl (fun st t => (process_user_message st t.1 t.2).2) s

theorem dictGet_set_self {α : Type} (d : List (List Char × α)) (k : List Char) (v : α) :
    dictGet (dictSet d k v) k = some v := by
  induction d with
  | nil => simp [dictSet, dictGet]
  | cons p rest ih =>
    by_cases h : p.1 = k
    · simp [dictSet, dictGet, h]
    · simp [dictSet, dictGet, h, ih]

theorem dictGet_set_other {α : Type} (d : List (List Char × α)) {k k' : List Char}
    (v : α) (h : k' ≠ k) : dictGet (dictSet d k v) k' = dictGet d k' := by
  have hk : ¬ (k = k') := fun he => h he.symm
  induction d with
  | nil =>
    simp only [dictSet, dictGet, if_neg hk]
  | cons p rest ih =>
    by_cases hp : p.1 = k
    · simp only [dictSet, if_pos hp, dictGet, if_neg hk]
      have hne : ¬ (p.1 = k') := by rw [hp]; exact hk
      rw [if_neg hne]
    · simp only [dictSet, if_neg hp, dictGet]
      by_cases hp' : p.1 = k'
      · rw [if_pos hp', if_pos hp']
      · rw [if_neg hp', if_neg hp', ih]

theorem dictHasKey_set_self {α : Type} (d : List (List Char × α)) (k : List Char) (v : α) :
    dictHasKey (dictSet d k v) k = true := by
  simp [dictHasKey, dictGet_set_self]

theorem dictHasKey_set_other {α : Type} (d : List (List Char × α)) {k k' : List Char}
    (v : α) (h : k' ≠ k) : dictHasKey (dictSet d k v) k' = dictHasKey d k' := by
  simp [dictHasKey, dictGet_set_other d v h]

theorem dictHasKey_update_of {α : Type} {d : List (List Char × α)}
    {e : List (List Char × α)} {k : List Char} (h : dictHasKey d k = true) :
    dictHasKey (dictUpdate d e) k = true := by
  unfold dictUpdate
  induction e generalizing d with
  | nil => exact h
  | cons p t ih =>
    rw [List.foldl_cons]
    apply ih
    by_cases hp : k = p.1
    · subst hp; exact dictHasKey_set_self d _ _
    · rw [dictHasKey_set_other d p.2 hp]; exact h

theorem dictKeys_nil {α : Type} : dictKeys ([] : List (List Char × α)) = [] := rfl

theorem dictKeys_cons {α : Type} (p : List Char × α) (d : List (List Char × α)) :
    dictKeys (p :: d) = p.1 :: dictKeys d := rfl

theorem dictKeys_set_subset {α : Type} {d : List (List Char × α)} {k x : List Char}
    {v : α} (h : x ∈ dictKeys (dictSet d k v)) : x ∈ dictKeys d ∨ x = k := by
  induction d with
  | nil =>
    simp only [dictSet, dictKeys_cons, dictKeys_nil, List.mem_cons,
      List.not_mem_nil, or_false] at h
    exact Or.inr h
  | cons p rest ih =>
    by_cases hp : p.1 = k
    · simp only [dictSet, if_pos hp, dictKeys_cons] at h
      rcases List.mem_cons.mp h with h' | h'
      · exact Or.inr h'
      · exact Or.inl (by rw [dictKeys_cons]; exact List.mem_cons_of_mem _ h')
    · simp only [dictSet, if_neg hp, dictKeys_cons] at h
      rcases List.mem_cons.mp h with h' | h'
      · exact Or.inl (by rw [dictKeys_cons]; exact h' ▸ List.mem_cons_self _ _)
      · rcases ih h' with h'' | h''
        · exact Or.inl (by rw [dictKeys_cons]; exact List.mem_cons_of_mem _ h'')
        · exact Or.inr h''

theorem dictKeys_update_subset {α : Type} {d e : List (List Char × α)} {x : List Char}
    (h : x ∈ dictKeys (dictUpdate d e)) : x ∈ dictKeys d ∨ x ∈ dictKeys e := by
  unfold dictUpdate at h
  induction e generalizing d with
  | nil => exact Or.inl h
  | cons p t ih =>
    rw [List.foldl_cons] at h
    rcases ih h with h' | h'
    · rcases dictKeys_set_subset h' with h'' | h''
      · exact Or.inl h''
      · exact Or.inr (by rw [dictKeys_cons]; exact h'' ▸ List.mem_cons_self _ _)
    · exact Or.inr (by rw [dictKeys_cons]; exact List.mem_cons_of_mem _ h')

theorem sortByPriority_slot_config : sortByPriority slot_config = slot_config := by
  decide

theorem get_missing_eq (slots : List (List Char × List Char)) :
    get_missing_critical_slots slots
      = schemaNames.filter (fun n => !(dictHasKey slots n)) := by
  unfold get_missing_critical_slots
  rw [sortByPriority_slot_config]
  cases h1 : dictHasKey slots (pyStr "operation") <;>
    cases h2 : dictHasKey slots (pyStr "machine_type") <;>
    cases h3 : dictHasKey slots (pyStr "defect") <;>
    cases h4 : dictHasKey slots (pyStr "error") <;>
    simp [slot_config, schemaNames, h1, h2, h3, h4]

theorem missing_nil_iff (slots : List (List Char × List Char)) :
    get_missing_critical_slots slots = []
      ↔ ∀ n ∈ schemaNames, dictHasKey slots n = true := by
  rw [get_missing_eq]
  rw [List.filter_eq_nil_iff]
  simp

theorem missing_nil_update {slots e : List (List Char × List Char)}
    (h : get_missing_critical_slots slots = []) :
    get_missing_critical_slots (dictUpdate slots e) = [] := by
  rw [missing_nil_iff] at h ⊢
  intro n hn
  exact dictHasKey_update_of (h n hn)

theorem gir_state (s : ConversationState) (iv : List Char)
    (r : Except (List Char) (List Char)) :
    (generate_intelligent_response s iv r).2
      = { s with current_phase := determine_conversation_phase s iv } := by
  unfold generate_intelligent_response
  cases r <;> rfl

theorem gts_state (s : ConversationState) (o : TurnOracle) :
    (generate_technical_solution s o).2
      = { s with
          problem_count := s.problem_count + 1
          solved_problems := s.solved_problems ++ [mintedProblemRecord s o.timestamp] } := by
  unfold generate_technical_solution
  cases o.solutionText <;> rfl

theorem body_ok {s1 : ConversationState} {input : List Char} {o : TurnOracle}
    {ia : TechnicalIntent} (hint : o.intentResult = Except.ok ia) :
    process_user_message_body s1 input o
      = Except.ok (process_turn_after_intent s1 o ia) := by
  simp [process_user_message_body, hint]

theorem body_err {s1 : ConversationState} {input : List Char} {o : TurnOracle}
    {e : List Char} (hint : o.intentResult = Except.error e) :
    process_user_message_body s1 input o = Except.error e := by
  simp [process_user_message_body, hint]

theorem foldl_max_zero (f : List Char → ℚ) :
    ∀ l : List (List Char), (∀ c ∈ l, f c = 0) →
      l.foldl (fun m x => max m (f x)) 0 = 0 := by
  intro l
  induction l with
  | nil => intro _; rfl
  | cons x t ih =>
    intro h
    rw [List.foldl_cons, h x (List.mem_cons_self _ _), max_self]
    exact ih (fun c hc => h c (List.mem_cons_of_mem _ hc))

theorem find_best_match_none_of_no_containment (uv_raw : List Char)
    (cands : List (List Char))
    (hfind : cands.find? (fun dbv => pyStrip (pyLower uv_raw) == pyLower dbv) = none)
    (hnc : ∀ c ∈ cands, containment_score (pyStrip (pyLower uv_raw)) (pyLower c) = 0) :
    find_best_match uv_raw cands = none := by
  obtain ⟨h2, -⟩ :=
    foldl_best_match_step_spec (pyStrip (pyLower uv_raw)) cands (none, 0) (le_refl 0)
  have hbest : (cands.foldl (best_match_step (pyStrip (pyLower uv_raw))) (none, 0)).2 = 0 := by
    rw [h2]
    exact foldl_max_zero _ cands (fun c hc => hnc c hc)
  simp only [find_best_match, hfind]
  rw [if_neg]
  rw [hbest]
  norm_num

theorem fbm_swd_none :
    find_best_match (pyStr "some weird defect")
      [pyStr "Broken stitch", pyStr "Raw edge"] = none := by
  apply find_best_match_none_of_no_containment
  · decide
  · intro c hc
    simp only [List.mem_cons, List.not_mem_nil, or_false] at hc
    rcases hc with rfl | rfl
    · unfold containment_score
      rw [if_neg (by decide), if_neg (by decide)]
    · unfold containment_score
      rw [if_neg (by decide), if_neg (by decide)]

theorem validateSlotStep_drop {acc : List (List Char × List Char)} {name v : List Char}
    {dbList : List (List Char)}
    (hdb : dictGet technical_db (dbKeyFor name) = some dbList)
    (hmem : v ∉ dbList)
    (hbm : find_best_match v dbList = none) :
    validateSlotStep acc (name, some v) = acc := by
  by_cases hfind : (slot_config.find? (fun c => c.name == name)).isSome
  · simp only [validateSlotStep, if_pos hfind, hdb, hbm, if_neg hmem]
  · simp only [validateSlotStep, if_neg hfind]

/-- C1 (amended): for a slot with a canonical vocabulary in the technical
database, a non-null proposed value that fails the exact membership check and
`best_match` at threshold 0.3 is dropped for the turn even when it passes the
slot's local syntactic validator — the validator fallback is consulted only
for slots without a vocabulary list. -/
theorem C1_locally_valid_raw_value_dropped :
    ∀ (acc : List (List Char × List Char)) (name v : List Char)
      (dbList : List (List Char)) (cfg : SlotConfig),
      slot_config.find? (fun c => c.name == name) = some cfg →
      dictGet technical_db (dbKeyFor name) = some dbList →
      v ∉ dbList →
      find_best_match v dbList = none →
      slotValidation cfg v = true →
      validateSlotStep acc (name, some v) = acc := by
  intro acc name v dbList cfg hfind hdb hmem hbm hval
  exact validateSlotStep_drop hdb hmem hbm

theorem C1_locally_valid_raw_value_dropped_witness :
    slot_config.find? (fun c => c.name == pyStr "defect")
        = some ⟨pyStr "defect", 3, true, 3⟩
    ∧ validateSlotStep [] (pyStr "defect", some (pyStr "some weird defect")) = [] :=
  ⟨by decide, C1_locally_valid_raw_value_dropped [] (pyStr "defect")
      (pyStr "some weird defect") [pyStr "Broken stitch", pyStr "Raw edge"]
      ⟨pyStr "defect", 3, true, 3⟩ (by decide) (by decide) (by decide)
      fbm_swd_none (by decide)⟩

/-- C1 counterexample: the proposed value "some weird defect" for the slot
`defect` fails `best_match` against the defect vocabulary and passes the
slot's local validator, yet the turn's validated mapping is empty — the raw
value is not stored, contradicting the claim. -/
theorem C1_keep_raw_counterexample :
    find_best_match (pyStr "some weird defect")
        [pyStr "Broken stitch", pyStr "Raw edge"] = none
    ∧ slotValidation ⟨pyStr "defect", 3, true, 3⟩ (pyStr "some weird defect") = true
    ∧ dictGet technical_db (dbKeyFor (pyStr "defect"))
        = some [pyStr "Broken stitch", pyStr "Raw edge"]
    ∧ validateExtractedSlots [(pyStr "defect", some (pyStr "some weird defect"))] = [] := by
  refine ⟨fbm_swd_none, by decide, by decide, ?_⟩
  show List.foldl validateSlotStep [] _ = []
  rw [List.foldl_cons, List.foldl_nil]
  exact validateSlotStep_drop (by decide) (by decide) fbm_swd_none

theorem name_mem_schema_of_find {name : List Char}
    (h : (slot_config.find? (fun c => c.name == name)).isSome = true) :
    name ∈ schemaNames := by
  rw [List.find?_isSome] at h
  obtain ⟨cfg, hmem, hcfg⟩ := h
  rw [beq_iff_eq] at hcfg
  exact hcfg ▸ List.mem_map_of_mem _ hmem

theorem validateSlotStep_keys {acc : List (List Char × List Char)}
    {p : List Char × Option (List Char)} {x : List Char}
    (h : x ∈ dictKeys (validateSlotStep acc p)) :
    x ∈ dictKeys acc ∨ x ∈ schemaNames := by
  rcases hp2 : p.2 with _ | v
  · simp only [validateSlotStep, hp2] at h
    exact Or.inl h
  · by_cases hfind : (slot_config.find? (fun c => c.name == p.1)).isSome = true
    · simp only [validateSlotStep, hp2, if_pos hfind] at h
      have hschema := name_mem_schema_of_find hfind
      rcases hdb : dictGet technical_db (dbKeyFor p.1) with _ | dbList
      · simp only [hdb] at h
        rcases hf : slot_config.find? (fun c => c.name == p.1) with _ | cfg
        · rw [hf] at hfind
          simp at hfind
        · simp only [hf] at h
          by_cases hv : slotValidation cfg v = true
          · rw [if_pos hv] at h
            rcases dictKeys_set_subset h with h' | h'
            · exact Or.inl h'
            · exact Or.inr (h' ▸ hschema)
          · rw [if_neg hv] at h
            exact Or.inl h
      · simp only [hdb] at h
        by_cases hmem : v ∈ dbList
        · rw [if_pos hmem] at h
          rcases dictKeys_set_subset h with h' | h'
          · exact Or.inl h'
          · exact Or.inr (h' ▸ hschema)
        · rw [if_neg hmem] at h
          rcases hbm : find_best_match v dbList with _ | bm
          · simp only [hbm] at h
            exact Or.inl h
          · simp only [hbm] at h
            rcases dictKeys_set_subset h with h' | h'
            · exact Or.inl h'
            · exact Or.inr (h' ▸ hschema)
    · simp only [validateSlotStep, hp2, if_neg hfind] at h
      exact Or.inl h

theorem validateExtractedSlots_keys {extracted : List (List Char × Option (List Char))}
    {x : List Char} (h : x ∈ dictKeys (validateExtractedSlots extracted)) :
    x ∈ schemaNames := by
  unfold validateExtractedSlots at h
  suffices h' : ∀ (l : List (List Char × Option (List Char)))
      (acc : List (List Char × List Char)),
      (∀ y ∈ dictKeys acc, y ∈ schemaNames) →
      ∀ y ∈ dictKeys (l.foldl validateSlotStep acc), y ∈ schemaNames by
    exact h' extracted [] (by intro y hy; simp [dictKeys_nil] at hy) x h
  intro l
  induction l with
  | nil => intro acc hacc y hy; exact hacc y hy
  | cons p t ih =>
    intro acc hacc y hy
    rw [List.foldl_cons] at hy
    refine ih _ ?_ y hy
    intro z hz
    rcases validateSlotStep_keys hz with h' | h'
    · exact hacc z h'
    · exact h'

theorem extract_slots_keys {oe : Except (List Char) (List (List Char × Option (List Char)))}
    {x : List Char} (h : x ∈ dictKeys (extract_slots_from_input oe)) :
    x ∈ schemaNames := by
  rcases oe with e | extracted
  · simp [extract_slots_from_input, dictKeys_nil] at h
  · exact validateExtractedSlots_keys h

theorem ptai_clarifications (s1 : ConversationState) (o : TurnOracle)
    (ia : TechnicalIntent) :
    (process_turn_after_intent s1 o ia).2.clarifications_needed
      = s1.clarifications_needed := by
  simp only [process_turn_after_intent]
  split_ifs <;> simp [gir_state, gts_state]

theorem ptai_turn_count (s1 : ConversationState) (o : TurnOracle)
    (ia : TechnicalIntent) :
    (process_turn_after_intent s1 o ia).2.turn_count = s1.turn_count := by
  simp only [process_turn_after_intent]
  split_ifs <;> simp [gir_state, gts_state]

theorem ptai_history (s1 : ConversationState) (o : TurnOracle)
    (ia : TechnicalIntent) :
    (process_turn_after_intent s1 o ia).2.conversation_history
      = s1.conversation_history ++ [(process_turn_after_intent s1 o ia).1] := by
  simp only [process_turn_after_intent]
  split_ifs <;> simp [gir_state, gts_state]

theorem ptai_slots_keys {s1 : ConversationState} {o : TurnOracle} {ia : TechnicalIntent}
    {x : List Char} (h : x ∈ dictKeys (process_turn_after_intent s1 o ia).2.slots) :
    x ∈ dictKeys s1.slots ∨ x ∈ schemaNames := by
  simp only [process_turn_after_intent] at h
  split_ifs at h <;> simp only [gir_state, gts_state] at h <;>
    (try simp at h) <;>
    first
      | exact Or.inl h
      | (rcases dictKeys_update_subset h with h' | h'
         · exact Or.inl h'
         · exact Or.inr (extract_slots_keys h'))
      | (rcases dictKeys_update_subset h with h' | h'
         · rw [dictKeys_nil] at h'
           exact absurd h' (List.not_mem_nil x)
         · exact Or.inr (extract_slots_keys h'))
      | (rw [dictKeys_nil] at h
         exact absurd h (List.not_mem_nil x))

theorem process_clarifications (s0 : ConversationState) (input : List Char)
    (o : TurnOracle) :
    (process_user_message s0 input o).2.clarifications_needed
      = s0.clarifications_needed := by
  rcases hio : o.intentResult with e | ia
  · simp only [process_user_message, body_err hio]
    split_ifs <;> simp [recordUserTurn]
  · simp only [process_user_message, body_ok hio]
    rw [ptai_clarifications]
    simp [recordUserTurn]

theorem process_turn_count (s0 : ConversationState) (input : List Char)
    (o : TurnOracle) :
    (process_user_message s0 input o).2.turn_count = s0.turn_count + 1 := by
  rcases hio : o.intentResult with e | ia
  · simp only [process_user_message, body_err hio]
    split_ifs <;> simp [recordUserTurn]
  · simp only [process_user_message, body_ok hio]
    rw [ptai_turn_count]
    simp [recordUserTurn]

theorem process_slots_keys {s0 : ConversationState} {input : List Char}
    {o : TurnOracle} {x : List Char}
    (h : x ∈ dictKeys (process_user_message s0 input o).2.slots) :
    x ∈ dictKeys s0.slots ∨ x ∈ schemaNames := by
  rcases hio : o.intentResult with e | ia
  · simp only [process_user_message, body_err hio] at h
    split_ifs at h <;> simp only [recordUserTurn] at h <;> exact Or.inl h
  · simp only [process_user_message, body_ok hio] at h
    rcases ptai_slots_keys h with h' | h'
    · exact Or.inl (by simpa [recordUserTurn] using h')
    · exact Or.inr h'

theorem process_history_ok {s0 : ConversationState} {input : List Char}
    {o : TurnOracle} {ia : TechnicalIntent} (hio : o.intentResult = Except.ok ia) :
    (process_user_message s0 input o).2.conversation_history
      = s0.conversation_history ++ [input, (process_user_message s0 input o).1] := by
  simp only [process_user_message, body_ok hio]
  rw [ptai_history]
  simp [recordUserTurn]

theorem process_history_err {s0 : ConversationState} {input : List Char}
    {o : TurnOracle} {e : List Char} (hio : o.intentResult = Except.error e) :
    (process_user_message s0 input o).2.conversation_history
      = s0.conversation_history ++ [input] := by
  simp only [process_user_message, body_err hio]
  split_ifs <;> simp [recordUserTurn]

/-- C7: every key of the validated slot mapping produced by slot
extraction/validation is one of the configured slot names, and after any
sequence of `process_user_message` calls from a fresh session the state's
slots contain only keys of the static slot schema. -/
theorem C7_slot_keys_in_schema :
    (∀ (extracted : List (List Char × Option (List Char))) (k : List Char),
        k ∈ dictKeys (validateExtractedSlots extracted) → k ∈ schemaNames)
    ∧ (∀ (turns : List (List Char × TurnOracle)) (k : List Char),
        k ∈ dictKeys (runTurns initialConversationState turns).slots →
        k ∈ schemaNames) := by
  constructor
  · intro extracted k h
    exact validateExtractedSlots_keys h
  · suffices hgen : ∀ (turns : List (List Char × TurnOracle)) (s : ConversationState),
        (∀ k ∈ dictKeys s.slots, k ∈ schemaNames) →
        ∀ k ∈ dictKeys (runTurns s turns).slots, k ∈ schemaNames by
      intro turns k h
      refine hgen turns initialConversationState ?_ k h
      intro k' hk'
      rw [initialConversationState] at hk'
      rw [dictKeys_nil] at hk'
      exact absurd hk' (List.not_mem_nil k')
    intro turns
    induction turns with
    | nil => intro s hs k h; exact hs k h
    | cons t rest ih =>
      intro s hs k h
      simp only [runTurns, List.foldl_cons] at h
      refine ih _ ?_ k h
      intro z hz
      rcases process_slots_keys hz with h' | h'
      · exact hs z h'
      · exact h'

theorem C7_slot_keys_in_schema_witness :
    pyStr "defect" ∈ dictKeys
        (validateExtractedSlots [(pyStr "defect", some (pyStr "Raw edge"))])
    ∧ pyStr "defect" ∈ schemaNames :=
  ⟨by decide, C7_slot_keys_in_schema.1
    [(pyStr "defect", some (pyStr "Raw edge"))] (pyStr "defect") (by decide)⟩

/-- The §4.3 decision table, as the specification states it: a pure function
of exactly (current phase, missing-required-slot count, turn count, intent
label), first matching rule wins. -/
def phase_decision_table (phase : ConversationPhase) (missingCount : Nat)
    (turn_count : Nat) (intent_value : List Char) : ConversationPhase :=
  let intent := pyLower intent_value
  if phase = ConversationPhase.POST_SOLUTION then
    if containsAny intent new_problem_keywords then ConversationPhase.NEW_PROBLEM
    else if containsAny intent clarify_keywords then ConversationPhase.CLARIFICATION
    else ConversationPhase.POST_SOLUTION
  else if phase = ConversationPhase.COMPLETION then ConversationPhase.POST_SOLUTION
  else if phase = ConversationPhase.NEW_PROBLEM then
    if missingCount > 2 then ConversationPhase.PROBLEM_IDENTIFICATION
    else if missingCount > 0 then ConversationPhase.CLARIFICATION
    else ConversationPhase.ANALYSIS
  else if turn_count ≤ 1 then ConversationPhase.GREETING
  else if missingCount > 2 then ConversationPhase.PROBLEM_IDENTIFICATION
  else if missingCount > 0 then ConversationPhase.CLARIFICATION
  else ConversationPhase.ANALYSIS

theorem determine_eq_table {s : ConversationState} (intent_value : List Char)
    (hclar : s.clarifications_needed = []) :
    determine_conversation_phase s intent_value
      = phase_decision_table s.current_phase
          (get_missing_critical_slots s.slots).length s.turn_count intent_value := by
  simp only [determine_conversation_phase, phase_decision_table, hclar]
  split_ifs <;> first | rfl | omega | simp_all

/-- The slot values of a fully specified problem (scenario-2 style state). -/
def fullSlots : List (List Char × List Char) :=
  [(pyStr "operation", pyStr "Side Seam"),
   (pyStr "machine_type", pyStr "FS"),
   (pyStr "defect", pyStr "Raw edge"),
   (pyStr "error", pyStr "Blunt Needle")]

/-- A state with zero missing slots and a non-empty `clarifications_needed`
(distinguishable from `C3stateB` only through that fifth field). -/
def C3stateA : ConversationState :=
  { slots := fullSlots
    conversation_history := []
    current_phase := ConversationPhase.ANALYSIS
    clarifications_needed := [pyStr "x"]
    turn_count := 5
    solved_problems := []
    problem_count := 0 }

/-- `C3stateA` with `clarifications_needed` empty. -/
def C3stateB : ConversationState :=
  { C3stateA with clarifications_needed := [] }

/-- C3 counterexample: two states agreeing on all four claimed inputs
(current phase, missing-slot count, turn count; the intent string is the same
call argument) on which `_determine_conversation_phase` returns different
phases — the function also reads `clarifications_needed` (line 318), so it is
not a function of the four inputs alone. -/
theorem C3_four_inputs_counterexample :
    C3stateA.current_phase = C3stateB.current_phase
    ∧ (get_missing_critical_slots C3stateA.slots).length
        = (get_missing_critical_slots C3stateB.slots).length
    ∧ C3stateA.turn_count = C3stateB.turn_count
    ∧ determine_conversation_phase C3stateA (pyStr "inquiry")
        = ConversationPhase.CLARIFICATION
    ∧ determine_conversation_phase C3stateB (pyStr "inquiry")
        = ConversationPhase.ANALYSIS := by
  refine ⟨rfl, ?_, rfl, ?_, ?_⟩ <;> decide

/-- C3 (amended): provided the state's `clarifications_needed` list is empty —
which holds in every state reachable from a fresh session, since nothing in
the engine ever appends to it — `_determine_conversation_phase` equals the
§4.3 first-match-wins decision table applied to exactly (current_phase,
missing-required-slot count, turn_count, intent label), and two calls with
identical values of those four inputs yield the same phase. -/
theorem C3_phase_table :
    (∀ (s : ConversationState) (iv : List Char), s.clarifications_needed = [] →
        determine_conversation_phase s iv
          = phase_decision_table s.current_phase
              (get_missing_critical_slots s.slots).length s.turn_count iv)
    ∧ (∀ (s1 s2 : ConversationState) (iv : List Char),
        s1.clarifications_needed = [] → s2.clarifications_needed = [] →
        s1.current_phase = s2.current_phase →
        (get_missing_critical_slots s1.slots).length
          = (get_missing_critical_slots s2.slots).length →
        s1.turn_count = s2.turn_count →
        determine_conversation_phase s1 iv = determine_conversation_phase s2 iv)
    ∧ (∀ turns : List (List Char × TurnOracle),
        (runTurns initialConversationState turns).clarifications_needed = []) := by
  refine ⟨fun s iv h => determine_eq_table iv h, ?_, ?_⟩
  · intro s1 s2 iv h1 h2 hp hm ht
    rw [determine_eq_table iv h1, determine_eq_table iv h2, hp, hm, ht]
  · suffices hgen : ∀ (turns : List (List Char × TurnOracle)) (s : ConversationState),
        s.clarifications_needed = [] →
        (runTurns s turns).clarifications_needed = [] by
      intro turns
      exact hgen turns initialConversationState rfl
    intro turns
    induction turns with
    | nil => intro s hs; exact hs
    | cons t rest ih =>
      intro s hs
      simp only [runTurns, List.foldl_cons]
      refine ih _ ?_
      rw [process_clarifications]
      exact hs

theorem C3_phase_table_witness :
    C3stateB.clarifications_needed = []
    ∧ determine_conversation_phase C3stateB (pyStr "inquiry")
        = phase_decision_table C3stateB.current_phase
            (get_missing_critical_slots C3stateB.slots).length
            C3stateB.turn_count (pyStr "inquiry") :=
  ⟨rfl, C3_phase_table.1 C3stateB (pyStr "inquiry") rfl⟩

theorem containsAny_nil_intent :
    containsAny [] new_problem_keywords = false := by
  decide

theorem determine_post_solution_new_problem (s : ConversationState)
    (iv : List Char)
    (hp : s.current_phase = ConversationPhase.POST_SOLUTION)
    (hkw : containsAny (pyLower iv) new_problem_keywords = true) :
    determine_conversation_phase s iv = ConversationPhase.NEW_PROBLEM := by
  simp only [determine_conversation_phase, hp, hkw, if_true, if_pos rfl]

/-- C2 (amended): a POST_SOLUTION turn whose intent string contains a
new-problem keyword preserves `solved_problems` and ends with `current_phase
= NEW_PROBLEM`, but the slots are left unchanged, not cleared: the slots-reset
at lines 571–575 is guarded by `hasattr(intent_analysis, 'intent')`, which is
False on the dict the intent chain's `JsonOutputParser` returns, so the reset
never fires; NEW_PROBLEM is instead stored by the phase recomputation inside
response generation, which reads the intent from the dict. -/
theorem C2_new_problem_turn (s : ConversationState) (input : List Char)
    (o : TurnOracle) (ia : TechnicalIntent)
    (hphase : s.current_phase = ConversationPhase.POST_SOLUTION)
    (hint : o.intentResult = Except.ok ia)
    (hkw : containsAny (pyLower ia.intent) new_problem_keywords = true) :
    (process_user_message s input o).2.slots = s.slots
    ∧ (process_user_message s input o).2.solved_problems = s.solved_problems
    ∧ (process_user_message s input o).2.current_phase
        = ConversationPhase.NEW_PROBLEM := by
  simp only [process_user_message, body_ok hint, process_turn_after_intent,
    recordUserTurn]
  simp only [hphase]
  simp only [containsAny_nil_intent, Bool.false_eq_true, and_false, if_false,
    ne_eq, not_true_eq_false, if_true, reduceIte]
  rw [gir_state]
  rw [determine_post_solution_new_problem _ _ (by simp) hkw]
  simp

/-- A post-solution state as reached after one solved problem. -/
def C2state : ConversationState :=
  { slots := fullSlots
    conversation_history := []
    current_phase := ConversationPhase.POST_SOLUTION
    clarifications_needed := []
    turn_count := 5
    solved_problems := [[(pyStr "problem_id", pyStr "PROB001")]]
    problem_count := 1 }

/-- Collaborator behavior for the C2 turn: intent analysis returns
`new_problem`, slot extraction raises, response composition succeeds. -/
def C2oracle : TurnOracle :=
  { intentResult := Except.ok ⟨pyStr "new_problem"⟩
    slotExtraction := Except.error (pyStr "boom")
    responseText := Except.ok (pyStr "ok")
    solutionText := Except.ok (pyStr "sol")
    dbLookup := Except.error (pyStr "down")
    timestamp := pyStr "2025-01-01 00:00:00" }

/-- C2 counterexample: a POST_SOLUTION turn whose intent contains the
keywords "new" and "problem" leaves the slots exactly as they were (the
previously solved problem's four values), not the empty mapping the claim
asserts — the line-571 reset is dead because the `hasattr` probe fails on the
parser's dict.  The phase does end as NEW_PROBLEM and `solved_problems` keeps
length 1. -/
theorem C2_post_solution_counterexample :
    C2state.current_phase = ConversationPhase.POST_SOLUTION
    ∧ containsAny (pyLower (pyStr "new_problem")) new_problem_keywords = true
    ∧ (process_user_message C2state (pyStr "I have another problem")
        C2oracle).2.slots = fullSlots
    ∧ fullSlots ≠ []
    ∧ (process_user_message C2state (pyStr "I have another problem")
        C2oracle).2.current_phase = ConversationPhase.NEW_PROBLEM := by
  refine ⟨rfl, by decide, by decide, by decide, by decide⟩

theorem C2_new_problem_turn_witness :
    C2state.current_phase = ConversationPhase.POST_SOLUTION
    ∧ C2oracle.intentResult = Except.ok ⟨pyStr "new_problem"⟩
    ∧ ((process_user_message C2state (pyStr "hello") C2oracle).2.slots
           = C2state.slots
       ∧ (process_user_message C2state (pyStr "hello") C2oracle).2.solved_problems
           = C2state.solved_problems
       ∧ (process_user_message C2state (pyStr "hello") C2oracle).2.current_phase
           = ConversationPhase.NEW_PROBLEM) :=
  ⟨rfl, rfl, C2_new_problem_turn C2state (pyStr "hello") C2oracle
    ⟨pyStr "new_problem"⟩ rfl rfl (by decide)⟩

theorem mintedProblemRecord_gets (s : ConversationState) (ts : List Char) :
    dictGet (mintedProblemRecord s ts) (pyStr "problem_id")
        = some (pyStr "PROB" ++ zeroPad3 (s.problem_count + 1))
    ∧ dictGet (mintedProblemRecord s ts) (pyStr "timestamp") = some ts := by
  unfold mintedProblemRecord
  constructor
  · rw [dictGet_set_other _ _ (by decide)]
    exact dictGet_set_self _ _ _
  · exact dictGet_set_self _ _ _

theorem mintedProblemRecord_get_other (s : ConversationState) (ts : List Char)
    {k : List Char} (h1 : k ≠ pyStr "problem_id") (h2 : k ≠ pyStr "timestamp") :
    dictGet (mintedProblemRecord s ts) k = dictGet s.slots k := by
  unfold mintedProblemRecord
  rw [dictGet_set_other _ _ h2, dictGet_set_other _ _ h1]

/-- C4: a turn beginning with all four required slots present and the phase
outside {COMPLETION, POST_SOLUTION} runs solution synthesis: `problem_count`
is incremented by exactly 1, a record snapshotting the slots (it agrees with
the state's slots on every key other than the two minted ones) with
`problem_id = "PROB" + %03d(problem_count)` and a timestamp is appended to
`solved_problems`, the phase becomes COMPLETION, and at that moment
`problem_count = len(solved_problems)` (assuming the invariant held at the
start of the turn, as it does in every reachable state; intent analysis is
assumed to answer, otherwise the turn aborts with the canned apology before
synthesis, per §4.4 step 2). -/
theorem C4_solution_synthesis (s : ConversationState) (input : List Char)
    (o : TurnOracle) (ia : TechnicalIntent)
    (hmissing : get_missing_critical_slots s.slots = [])
    (hp1 : s.current_phase ≠ ConversationPhase.COMPLETION)
    (hp2 : s.current_phase ≠ ConversationPhase.POST_SOLUTION)
    (hint : o.intentResult = Except.ok ia)
    (hinv : s.problem_count = s.solved_problems.length) :
    (process_user_message s input o).2.problem_count = s.problem_count + 1
    ∧ (∃ r : ProblemRecord,
        (process_user_message s input o).2.solved_problems
            = s.solved_problems ++ [r]
        ∧ dictGet r (pyStr "problem_id")
            = some (pyStr "PROB" ++ zeroPad3 (s.problem_count + 1))
        ∧ dictGet r (pyStr "timestamp") = some o.timestamp
        ∧ (∀ k : List Char, k ≠ pyStr "problem_id" → k ≠ pyStr "timestamp" →
            dictGet r k = dictGet (process_user_message s input o).2.slots k))
    ∧ (process_user_message s input o).2.current_phase
        = ConversationPhase.COMPLETION
    ∧ (process_user_message s input o).2.problem_count
        = (process_user_message s input o).2.solved_problems.length := by
  by_cases hextr : extract_slots_from_input o.slotExtraction ≠ []
  · simp only [process_user_message, body_ok hint, process_turn_after_intent,
      recordUserTurn, eq_false hp1, eq_false hp2, false_or, or_false, false_and,
      if_false, ne_eq, not_false_eq_true, if_true, hextr,
      missing_nil_update hmissing, true_and, and_true]
    refine ⟨by simp [gts_state],
      ⟨mintedProblemRecord
        { slots := dictUpdate s.slots (extract_slots_from_input o.slotExtraction)
          conversation_history := s.conversation_history ++ [input]
          current_phase := s.current_phase
          clarifications_needed := s.clarifications_needed
          turn_count := s.turn_count + 1
          solved_problems := s.solved_problems
          problem_count := s.problem_count } o.timestamp,
        by simp [gts_state], ?_, ?_, ?_⟩, ?_⟩
    · exact (mintedProblemRecord_gets _ _).1
    · exact (mintedProblemRecord_gets _ _).2
    · intro k h1 h2
      simp only [gts_state]
      exact mintedProblemRecord_get_other _ _ h1 h2
    · simp [gts_state, hinv]
  · simp only [process_user_message, body_ok hint, process_turn_after_intent,
      recordUserTurn, eq_false hp1, eq_false hp2, false_or, or_false, false_and,
      if_false, ne_eq, not_false_eq_true, if_true, hextr, hmissing,
      true_and, and_true, not_not, not_true_eq_false]
    refine ⟨by simp [gts_state],
      ⟨mintedProblemRecord
        { slots := s.slots
          conversation_history := s.conversation_history ++ [input]
          current_phase := s.current_phase
          clarifications_needed := s.clarifications_needed
          turn_count := s.turn_count + 1
          solved_problems := s.solved_problems
          problem_count := s.problem_count } o.timestamp,
        by simp [gts_state], ?_, ?_, ?_⟩, ?_⟩
    · exact (mintedProblemRecord_gets _ _).1
    · exact (mintedProblemRecord_gets _ _).2
    · intro k h1 h2
      simp only [gts_state]
      exact mintedProblemRecord_get_other _ _ h1 h2
    · simp [gts_state, hinv]

theorem C4_solution_synthesis_witness :
    get_missing_critical_slots C3stateB.slots = []
    ∧ ((process_user_message C3stateB (pyStr "go") C2oracle).2.problem_count
          = C3stateB.problem_count + 1
       ∧ (∃ r : ProblemRecord,
            (process_user_message C3stateB (pyStr "go") C2oracle).2.solved_problems
                = C3stateB.solved_problems ++ [r]
            ∧ dictGet r (pyStr "problem_id")
                = some (pyStr "PROB" ++ zeroPad3 (C3stateB.problem_count + 1))
            ∧ dictGet r (pyStr "timestamp") = some C2oracle.timestamp
            ∧ (∀ k : List Char, k ≠ pyStr "problem_id" → k ≠ pyStr "timestamp" →
                dictGet r k = dictGet (process_user_message C3stateB (pyStr "go")
                    C2oracle).2.slots k))
       ∧ (process_user_message C3stateB (pyStr "go") C2oracle).2.current_phase
            = ConversationPhase.COMPLETION
       ∧ (process_user_message C3stateB (pyStr "go") C2oracle).2.problem_count
            = (process_user_message C3stateB (pyStr "go")
                C2oracle).2.solved_problems.length) :=
  ⟨by decide, C4_solution_synthesis C3stateB (pyStr "go") C2oracle
    ⟨pyStr "new_problem"⟩ (by decide) (by decide) (by decide) rfl rfl⟩

/-- Collaborator behavior where intent analysis raises. -/
def C6oracle : TurnOracle :=
  { intentResult := Except.error (pyStr "llm down")
    slotExtraction := Except.error (pyStr "llm down")
    responseText := Except.error (pyStr "llm down")
    solutionText := Except.error (pyStr "llm down")
    dbLookup := Except.error (pyStr "llm down")
    timestamp := pyStr "2025-01-01 00:00:00" }

/-- C6 counterexample: when intent analysis raises, the turn ends through the
top-level handler, which returns the fallback response without appending it —
the history holds only the utterance (one new entry, not two). -/
theorem C6_two_entries_counterexample :
    (process_user_message initialConversationState (pyStr "Hello")
        C6oracle).2.conversation_history = [pyStr "Hello"]
    ∧ (process_user_message initialConversationState (pyStr "Hello")
        C6oracle).2.conversation_history
      ≠ [pyStr "Hello",
         (process_user_message initialConversationState (pyStr "Hello") C6oracle).1] := by
  exact ⟨by decide, by decide⟩

/-- C6 (amended): every call increments `turn_count` by exactly 1 and appends
the utterance to the history, changing no earlier entry; when intent analysis
answers, the returned response is also appended, so the history grows by
exactly two entries (utterance then response); when intent analysis raises,
the fallback response is returned without being appended and the history grows
by exactly one entry. -/
theorem C6_history_growth (s : ConversationState) (input : List Char)
    (o : TurnOracle) :
    (process_user_message s input o).2.turn_count = s.turn_count + 1
    ∧ (∀ ia, o.intentResult = Except.ok ia →
        (process_user_message s input o).2.conversation_history
          = s.conversation_history ++ [input, (process_user_message s input o).1])
    ∧ (∀ e, o.intentResult = Except.error e →
        (process_user_message s input o).2.conversation_history
          = s.conversation_history ++ [input]) := by
  refine ⟨process_turn_count s input o, ?_, ?_⟩
  · intro ia hio
    exact process_history_ok hio
  · intro e hio
    exact process_history_err hio

theorem C6_history_growth_witness :
    C2oracle.intentResult = Except.ok ⟨pyStr "new_problem"⟩
    ∧ (process_user_message initialConversationState (pyStr "Hi")
          C2oracle).2.conversation_history
        = initialConversationState.conversation_history
            ++ [pyStr "Hi",
                (process_user_message initialConversationState (pyStr "Hi") C2oracle).1] :=
  ⟨rfl, (C6_history_growth initialConversationState (pyStr "Hi") C2oracle).2.1
      ⟨pyStr "new_problem"⟩ rfl⟩

/-- C5: for every state, input and collaborator behavior — including any of
the five collaborators raising — `process_user_message` returns a response and
an updated state rather than propagating an exception, a further turn can then
be processed on the resulting state, and the pipeline body fails only when
intent analysis fails: failures of slot extraction, response composition,
solution composition and the solution lookup are absorbed by their local
handlers. -/
theorem C5_never_propagates (s : ConversationState) (input : List Char)
    (o : TurnOracle) :
    (∃ resp s', process_user_message s input o = (resp, s')
      ∧ ∀ (input2 : List Char) (o2 : TurnOracle),
          ∃ resp2 s'', process_user_message s' input2 o2 = (resp2, s''))
    ∧ (∀ ia, o.intentResult = Except.ok ia →
        process_user_message_body (recordUserTurn s input) input o
          = Except.ok (process_turn_after_intent (recordUserTurn s input) o ia)) := by
  constructor
  · exact ⟨(process_user_message s input o).1, (process_user_message s input o).2,
      rfl, fun input2 o2 =>
        ⟨(process_user_message (process_user_message s input o).2 input2 o2).1,
         (process_user_message (process_user_message s input o).2 input2 o2).2, rfl⟩⟩
  · intro ia hio
    exact body_ok hio

theorem C5_never_propagates_witness :
    C6oracle.intentResult = Except.error (pyStr "llm down")
    ∧ C2oracle.intentResult = Except.ok ⟨pyStr "new_problem"⟩
    ∧ process_user_message_body (recordUserTurn initialConversationState (pyStr "Hi"))
        (pyStr "Hi") C2oracle
      = Except.ok (process_turn_after_intent
          (recordUserTurn initialConversationState (pyStr "Hi")) C2oracle
          ⟨pyStr "new_problem"⟩) :=
  ⟨rfl, rfl, (C5_never_propagates initialConversationState (pyStr "Hi") C2oracle).2
      ⟨pyStr "new_problem"⟩ rfl⟩
